import Mathlib

/-!
Verification of the sequence engine in src/app.py.

The three computational functions of the repository are embedded over the
rationals, with term counts as integers so that the Python semantics of
`range(num_terms)` (empty for a non-positive argument) is preserved.  The
validation logic of the calculate button in `main` is embedded as a
function returning `Except String`, mirroring the error messages shown to
the user.
-/

/-- Embedding of `calculate_arithmetic_sequence` (src/app.py lines 5-21):
the loop `for i in range(num_terms)` appends `first_term + (i * common_difference)`. -/
def calculate_arithmetic_sequence (first_term common_difference : ℚ)
    (num_terms : ℤ) : List ℚ :=
  (List.range num_terms.toNat).map
    (fun (i : ℕ) => first_term + (i : ℚ) * common_difference)

/-- Embedding of `calculate_geometric_sequence` (src/app.py lines 23-39):
the loop `for i in range(num_terms)` appends `first_term * (common_ratio ** i)`.
Note that Python evaluates `0 ** 0` to `1`, as does the monoid power here. -/
def calculate_geometric_sequence (first_term r : ℚ) (num_terms : ℤ) : List ℚ :=
  (List.range num_terms.toNat).map (fun (i : ℕ) => first_term * r ^ i)

/-- Embedding of `calculate_geometric_series_sum` (src/app.py lines 41-56):
returns `first_term * num_terms` when the ratio is 1, and otherwise
`first_term * (1 - common_ratio ** num_terms) / (1 - common_ratio)`. -/
def calculate_geometric_series_sum (first_term r : ℚ) (num_terms : ℤ) : ℚ :=
  if r = 1 then first_term * (num_terms : ℚ)
  else first_term * (1 - r ^ num_terms) / (1 - r)

/-- The two sequence kinds offered by the radio selector in `main`. -/
inductive SequenceType
  | arithmetic
  | geometric
deriving DecidableEq

/-- Embedding of the calculate-button logic of `main` (src/app.py lines
124-144): validation of `num_terms`, then dispatch on the sequence type,
returning the sequence together with its series sum. -/
def main_calculate (seq_type : SequenceType) (first_term common_difference r : ℚ)
    (num_terms : ℤ) : Except String (List ℚ × ℚ) :=
  if num_terms ≤ 0 then
    Except.error "Number of terms must be a positive integer."
  else if num_terms > 1000 then
    Except.error "Number of terms cannot exceed 1000."
  else
    match seq_type with
    | SequenceType.arithmetic =>
      let sequence := calculate_arithmetic_sequence first_term common_difference num_terms
      Except.ok (sequence, sequence.sum)
    | SequenceType.geometric =>
      Except.ok (calculate_geometric_sequence first_term r num_terms,
        calculate_geometric_series_sum first_term r num_terms)

/-- Helper: the element at index i of the arithmetic sequence list. -/
theorem arith_term_get (first_term common_difference : ℚ) (num_terms : ℤ)
    (i : ℕ) (hi : (i : ℤ) < num_terms) :
    (calculate_arithmetic_sequence first_term common_difference num_terms).get? i =
      some (first_term + (i : ℚ) * common_difference) := by
  have hi2 : i < num_terms.toNat := by omega
  unfold calculate_arithmetic_sequence
  rw [List.get?_eq_getElem?, List.getElem?_map, List.getElem?_range hi2]
  rfl

/-- Helper: the element at index i of the geometric sequence list. -/
theorem geom_term_get (first_term r : ℚ) (num_terms : ℤ)
    (i : ℕ) (hi : (i : ℤ) < num_terms) :
    (calculate_geometric_sequence first_term r num_terms).get? i =
      some (first_term * r ^ i) := by
  have hi2 : i < num_terms.toNat := by omega
  unfold calculate_geometric_sequence
  rw [List.get?_eq_getElem?, List.getElem?_map, List.getElem?_range hi2]
  rfl

/-- Helper: the sum of a mapped range list as a Finset sum. -/
theorem list_range_map_sum (k : ℕ) (g : ℕ → ℚ) :
    ((List.range k).map g).sum = ∑ i in Finset.range k, g i := by
  induction k with
  | zero => simp
  | succ k ih =>
    rw [List.range_succ, List.map_append, List.sum_append,
      Finset.sum_range_succ, ih]
    simp

/-- C1: for every firstTerm, commonDifference and termCount at least 1, the
element of the returned list at each index i below termCount equals
firstTerm + i * commonDifference. -/
theorem arithmetic_sequence_term (first_term common_difference : ℚ) (num_terms : ℤ)
    (h : 1 ≤ num_terms) (i : ℕ) (hi : (i : ℤ) < num_terms) :
    (calculate_arithmetic_sequence first_term common_difference num_terms).get? i =
      some (first_term + (i : ℚ) * common_difference) :=
  arith_term_get first_term common_difference num_terms i hi

theorem arithmetic_sequence_term_witness :
    (calculate_arithmetic_sequence 2 2 5).get? 3 = some 8 := by
  have h := arithmetic_sequence_term 2 2 5 (by norm_num) 3 (by norm_num)
  norm_num at h
  exact h

/-- C2: for every firstTerm, commonRatio and termCount at least 1, the element
of the returned list at each index i below termCount equals
firstTerm * commonRatio ^ i, and when firstTerm = 0 every such element is 0. -/
theorem geometric_sequence_term (first_term r : ℚ) (num_terms : ℤ)
    (h : 1 ≤ num_terms) (i : ℕ) (hi : (i : ℤ) < num_terms) :
    (calculate_geometric_sequence first_term r num_terms).get? i =
      some (first_term * r ^ i) ∧
    (first_term = 0 →
      (calculate_geometric_sequence first_term r num_terms).get? i = some 0) := by
  have hbase := geom_term_get first_term r num_terms i hi
  refine ⟨hbase, ?_⟩
  rintro rfl
  rw [hbase]
  norm_num

theorem geometric_sequence_term_witness :
    (calculate_geometric_sequence 2 3 4).get? 3 = some 54 ∧
    (calculate_geometric_sequence 0 3 4).get? 3 = some 0 := by
  have h1 := (geometric_sequence_term 2 3 4 (by norm_num) 3 (by norm_num)).1
  have h2 := (geometric_sequence_term 0 3 4 (by norm_num) 3 (by norm_num)).2 rfl
  norm_num at h1
  exact ⟨h1, h2⟩

/-- C9: for every nonpositive termCount both sequence generators return the
empty list, since the loop over range(termCount) runs zero iterations. -/
theorem sequences_empty_on_nonpositive_count (first_term common_difference r : ℚ)
    (num_terms : ℤ) (h : num_terms ≤ 0) :
    calculate_arithmetic_sequence first_term common_difference num_terms = [] ∧
    calculate_geometric_sequence first_term r num_terms = [] := by
  have h0 : num_terms.toNat = 0 := by omega
  exact ⟨by simp [calculate_arithmetic_sequence, h0],
    by simp [calculate_geometric_sequence, h0]⟩

theorem sequences_empty_on_nonpositive_count_witness :
    calculate_arithmetic_sequence 1 1 (-2) = [] ∧
    calculate_geometric_sequence 1 1 (-2) = [] :=
  sequences_empty_on_nonpositive_count 1 1 1 (-2) (by norm_num)

/-- C5 counterexample: at termCount = 0 the generation functions do not fail;
each returns the empty list as an ordinary result. -/
theorem sequence_functions_return_result_on_zero_count :
    calculate_arithmetic_sequence 1 1 0 = [] ∧
    calculate_geometric_sequence 1 1 0 = [] := by
  exact ⟨rfl, rfl⟩

/-- C5 amended: for termCount below 1 the generation functions raise no error
and return the empty list; the InvalidArgument rejection is performed by the
caller `main`, which reports the error without invoking the generators. -/
theorem invalid_term_count_rejected_by_main (seq_type : SequenceType)
    (first_term common_difference r : ℚ) (num_terms : ℤ) (h : num_terms < 1) :
    calculate_arithmetic_sequence first_term common_difference num_terms = [] ∧
    calculate_geometric_sequence first_term r num_terms = [] ∧
    main_calculate seq_type first_term common_difference r num_terms =
      Except.error "Number of terms must be a positive integer." := by
  have h0 : num_terms.toNat = 0 := by omega
  have h1 : num_terms ≤ 0 := by omega
  refine ⟨?_, ?_, ?_⟩
  · simp [calculate_arithmetic_sequence, h0]
  · simp [calculate_geometric_sequence, h0]
  · simp [main_calculate, h1]

theorem invalid_term_count_rejected_by_main_witness :
    calculate_arithmetic_sequence 1 1 0 = [] ∧
    calculate_geometric_sequence 1 1 0 = [] ∧
    main_calculate SequenceType.arithmetic 1 1 1 0 =
      Except.error "Number of terms must be a positive integer." :=
  invalid_term_count_rejected_by_main SequenceType.arithmetic 1 1 1 0 (by norm_num)

/-- C6: for every firstTerm, commonDifference and termCount in [1, 1000], the
returned list has length exactly termCount and its first element equals
firstTerm. -/
theorem arithmetic_sequence_length_and_head (first_term common_difference : ℚ)
    (num_terms : ℤ) (h1 : 1 ≤ num_terms) (h2 : num_terms ≤ 1000) :
    ((calculate_arithmetic_sequence first_term common_difference num_terms).length
      : ℤ) = num_terms ∧
    (calculate_arithmetic_sequence first_term common_difference num_terms).head? =
      some first_term := by
  constructor
  · simp only [calculate_arithmetic_sequence, List.length_map, List.length_range]
    omega
  · unfold calculate_arithmetic_sequence
    obtain ⟨k, hk⟩ : ∃ k, num_terms.toNat = k + 1 := ⟨num_terms.toNat - 1, by omega⟩
    rw [hk, List.range_succ_eq_map]
    simp

theorem arithmetic_sequence_length_and_head_witness :
    ((calculate_arithmetic_sequence 10 (-3) 5).length : ℤ) = 5 ∧
    (calculate_arithmetic_sequence 10 (-3) 5).head? = some 10 :=
  arithmetic_sequence_length_and_head 10 (-3) 5 (by norm_num) (by norm_num)

/-- C7: for every firstTerm, commonDifference and termCount at least 2, any
two consecutive elements of the returned list differ by exactly the common
difference. -/
theorem arithmetic_consecutive_difference (first_term common_difference : ℚ)
    (num_terms : ℤ) (h : 2 ≤ num_terms) (i : ℕ) (hi : (i : ℤ) + 1 < num_terms) :
    ∃ x y,
      (calculate_arithmetic_sequence first_term common_difference num_terms).get? i
        = some x ∧
      (calculate_arithmetic_sequence first_term common_difference num_terms).get?
        (i + 1) = some y ∧
      y - x = common_difference := by
  refine ⟨first_term + (i : ℚ) * common_difference,
    first_term + ((i + 1 : ℕ) : ℚ) * common_difference, ?_, ?_, ?_⟩
  · exact arith_term_get first_term common_difference num_terms i (by omega)
  · exact arith_term_get first_term common_difference num_terms (i + 1)
      (by push_cast; omega)
  · push_cast
    ring

theorem arithmetic_consecutive_difference_witness :
    ∃ x y, (calculate_arithmetic_sequence 10 (-3) 5).get? 2 = some x ∧
      (calculate_arithmetic_sequence 10 (-3) 5).get? 3 = some y ∧
      y - x = -3 :=
  arithmetic_consecutive_difference 10 (-3) 5 (by norm_num) 2 (by norm_num)

/-- C8: for every firstTerm, commonRatio and termCount at least 2, whenever an
element of the returned list is nonzero, the quotient of the next element by
it equals the common ratio. -/
theorem geometric_consecutive_ratio (first_term r : ℚ) (num_terms : ℤ)
    (h : 2 ≤ num_terms) (i : ℕ) (hi : (i : ℤ) + 1 < num_terms) :
    ∃ x y,
      (calculate_geometric_sequence first_term r num_terms).get? i = some x ∧
      (calculate_geometric_sequence first_term r num_terms).get? (i + 1) = some y ∧
      (x ≠ 0 → y / x = r) := by
  refine ⟨first_term * r ^ i, first_term * r ^ (i + 1), ?_, ?_, ?_⟩
  · exact geom_term_get first_term r num_terms i (by omega)
  · exact geom_term_get first_term r num_terms (i + 1) (by push_cast; omega)
  · intro hx
    rw [pow_succ, ← mul_assoc]
    exact mul_div_cancel_left₀ r hx

theorem geometric_consecutive_ratio_witness :
    ∃ x y, (calculate_geometric_sequence 2 3 4).get? 1 = some x ∧
      (calculate_geometric_sequence 2 3 4).get? 2 = some y ∧
      (x ≠ 0 → y / x = 3) :=
  geometric_consecutive_ratio 2 3 4 (by norm_num) 1 (by norm_num)

/-- C10: with commonRatio = 0 and termCount at least 1, the first element of
the returned list equals firstTerm (since 0 ** 0 evaluates to 1), every later
element below termCount is 0, and when firstTerm is nonzero the list is not
all zeros. -/
theorem geometric_sequence_zero_ratio (first_term : ℚ) (num_terms : ℤ)
    (h : 1 ≤ num_terms) :
    (calculate_geometric_sequence first_term 0 num_terms).head? =
      some first_term ∧
    (∀ i : ℕ, 1 ≤ i → (i : ℤ) < num_terms →
      (calculate_geometric_sequence first_term 0 num_terms).get? i = some 0) ∧
    (first_term ≠ 0 →
      ¬ ∀ x ∈ calculate_geometric_sequence first_term 0 num_terms, x = 0) := by
  have h0 := geom_term_get first_term 0 num_terms 0 (by omega)
  refine ⟨?_, ?_, ?_⟩
  · rw [List.head?_eq_getElem?, ← List.get?_eq_getElem?, h0]
    norm_num
  · intro i hi1 hi2
    rw [geom_term_get first_term 0 num_terms i hi2,
      zero_pow (show i ≠ 0 by omega), mul_zero]
  · intro hf hall
    have hmem : first_term * 0 ^ 0 ∈
        calculate_geometric_sequence first_term 0 num_terms :=
      List.get?_mem h0
    have hz := hall _ hmem
    norm_num at hz
    exact hf hz

theorem geometric_sequence_zero_ratio_witness :
    (calculate_geometric_sequence 3 0 4).head? = some 3 ∧
    (∀ i : ℕ, 1 ≤ i → (i : ℤ) < 4 →
      (calculate_geometric_sequence 3 0 4).get? i = some 0) ∧
    ((3 : ℚ) ≠ 0 → ¬ ∀ x ∈ calculate_geometric_sequence 3 0 4, x = 0) :=
  geometric_sequence_zero_ratio 3 4 (by norm_num)

/-- C3: for every firstTerm, commonRatio and termCount at least 1, the series
sum equals firstTerm * termCount when the ratio is 1, and
firstTerm * (1 - commonRatio ^ termCount) / (1 - commonRatio) otherwise. -/
theorem geometric_series_sum_closed_form (first_term r : ℚ) (num_terms : ℤ)
    (h : 1 ≤ num_terms) :
    (r = 1 →
      calculate_geometric_series_sum first_term r num_terms =
        first_term * (num_terms : ℚ)) ∧
    (r ≠ 1 →
      calculate_geometric_series_sum first_term r num_terms =
        first_term * (1 - r ^ num_terms.toNat) / (1 - r)) := by
  constructor
  · rintro rfl
    simp [calculate_geometric_series_sum]
  · intro hr
    have hn : (num_terms.toNat : ℤ) = num_terms := Int.toNat_of_nonneg (by omega)
    have hp : r ^ num_terms = r ^ num_terms.toNat := by
      conv_lhs => rw [← hn, zpow_natCast]
    unfold calculate_geometric_series_sum
    rw [if_neg hr, hp]

theorem geometric_series_sum_closed_form_witness :
    calculate_geometric_series_sum 5 1 7 = 35 ∧
    calculate_geometric_series_sum 2 3 4 = 80 := by
  have h1 := (geometric_series_sum_closed_form 5 1 7 (by norm_num)).1 rfl
  have h2 := (geometric_series_sum_closed_form 2 3 4 (by norm_num)).2 (by norm_num)
  rw [show Int.toNat 4 = 4 from rfl] at h2
  norm_num at h1 h2
  exact ⟨h1, h2⟩

/-- C4: for every firstTerm, commonRatio and termCount in [1, 1000], the
closed-form series sum equals the direct sum of the generated geometric
sequence, in both the ratio-1 case and the general case. -/
theorem geometric_series_sum_matches_sequence_sum (first_term r : ℚ)
    (num_terms : ℤ) (h1 : 1 ≤ num_terms) (h2 : num_terms ≤ 1000) :
    (calculate_geometric_sequence first_term r num_terms).sum =
      calculate_geometric_series_sum first_term r num_terms := by
  have hn : (num_terms.toNat : ℤ) = num_terms := Int.toNat_of_nonneg (by omega)
  unfold calculate_geometric_sequence calculate_geometric_series_sum
  rw [list_range_map_sum]
  by_cases hr : r = 1
  · subst hr
    rw [if_pos rfl]
    simp only [one_pow, mul_one, Finset.sum_const, Finset.card_range,
      nsmul_eq_mul]
    rw [mul_comm]
    congr 1
    exact_mod_cast hn
  · have hp : r ^ num_terms = r ^ num_terms.toNat := by
      conv_lhs => rw [← hn, zpow_natCast]
    rw [if_neg hr, ← Finset.mul_sum, geom_sum_eq hr, hp]
    have hr1 : r - 1 ≠ 0 := sub_ne_zero.mpr hr
    have hr2 : (1 : ℚ) - r ≠ 0 := sub_ne_zero.mpr (Ne.symm hr)
    field_simp
    ring

theorem geometric_series_sum_matches_sequence_sum_witness :
    (calculate_geometric_sequence 100 (1 / 2) 4).sum =
      calculate_geometric_series_sum 100 (1 / 2) 4 :=
  geometric_series_sum_matches_sequence_sum 100 (1 / 2) 4 (by norm_num)
    (by norm_num)
